import Mathlib

/-!
WiznetCanBackend: CAN frames tunnelled over UDP.

A shallow embedding of `src/WiznetCanBackend.cpp`: the two `convert` overloads
(frame codec), `writeFrame`, `open`, `timerEvent` (egress loop and heartbeat
checkpoint) and the packet dispatch of `handlePacket`.

Conventions.
* The header `WiznetCanBackend.h` and the protocol headers it pulls in are not
  part of the source tree, so the constants they declare are the fields of
  `Consts`; every theorem states which facts about them it uses.
* `QCanBusFrame` is the Qt Serial Bus value class; its inline members are
  transcribed from `qcanbusframe.h` of Qt 5.15 (the source uses `CanBusStatus`,
  which Qt has since 5.14).
* Integer members are natural numbers. `ping_cnt` is taken to be unsigned, of a
  width that is a parameter; `framesSent` (`qint64`) and `totalBytes` cannot
  overflow within one tick.
* A step that trips `Q_ASSERT` or reads memory the program never wrote yields
  `Except.error`; every other step yields `Except.ok`.
-/

namespace Wiznet

/-- One octet of payload or status (`uint8_t`, `char`). -/
abbrev Byte := Fin 256

/-- Constants that the translation unit uses and that are declared in headers
outside the source tree. They are parameters of the model. -/
structure Consts where
  /-- Wire tag of a data frame. -/
  CAN_FRAME_TYPE_DATA : Nat
  /-- Wire tag (bit) of a remote request frame. -/
  CAN_FRAME_TYPE_REMOTE : Nat
  /-- Wire tag of an error frame. -/
  CAN_FRAME_TYPE_ERROR : Nat
  /-- Wire value of `id_type` for an 11 bit identifier. -/
  CAN_STD : Nat
  /-- Wire value of `id_type` for a 29 bit identifier. -/
  CAN_EXT : Nat
  /-- Mask of the bus-off bit in a ping reply. -/
  CAN_ERR_BUS_OFF : Nat
  /-- Mask of the warning bit in a ping reply. -/
  CAN_ERR_WARNING : Nat
  /-- Packet type of a heartbeat. -/
  PKT_TYPE_PING : Nat
  /-- Packet type of a packet that carries one `can_msg_t`. -/
  PKT_TYPE_CAN : Nat
  /-- Value of `sizeof(can_msg_t)`. -/
  sizeof_can_msg_t : Nat
  /-- Width in bits of the unsigned member `ping_cnt`. -/
  ping_cnt_bits : Nat
  deriving Repr

/-- Modelled from the spec: `CAN_ERR_NONE` is declared outside the source tree;
section 4.5 gives the no-error status as the exact value zero. -/
def CAN_ERR_NONE : Nat := 0

/-- Modelled from the spec: the array `can_msg_t::data` is declared outside the
source tree; section 6 gives the wire encoding up to 8 payload bytes, so
`sizeof(frame.data)` is 8. -/
def sizeof_data : Nat := 8

/-- Line 9. -/
def MAX_BYTES_PER_SEC : Nat := 38400

/-- Line 10. -/
def OUTGOING_QUEUE_TIMEOUT_MSEC : Nat := 50

/-- Lines 11-12; integer division as in C++. -/
def MAX_BYTES_PER_TIMEOUT : Nat :=
  MAX_BYTES_PER_SEC / (1000 / OUTGOING_QUEUE_TIMEOUT_MSEC)

/-- Ways in which a step leaves defined behaviour. -/
inductive Fault
  /-- The assertion `Q_ASSERT(payload.size() <= sizeof(frame.data))` of line 75
  fails. -/
  | assertPayloadSize
  /-- More bytes are read from `data` than the array holds. -/
  | readPastArray
  /-- A byte of `data` is read that was never written. -/
  | indeterminateRead
  /-- The loop bound of the model was too small (shown never to happen). -/
  | outOfFuel
  deriving DecidableEq, Repr

deriving instance DecidableEq for Except

/-! ## QCanBusFrame (Qt Serial Bus) -/

/-- The enumeration `QCanBusFrame::FrameType`. -/
inductive FrameType
  | UnknownFrame
  | DataFrame
  | ErrorFrame
  | RemoteRequestFrame
  | InvalidFrame
  deriving DecidableEq, Repr

/-- The class `QCanBusFrame::TimeStamp`: seconds and microseconds. -/
structure TimeStamp where
  seconds : Int
  microSeconds : Int
  deriving DecidableEq, Repr

/-- The members of `QCanBusFrame`. `format` holds the frame type that
`setFrameType` stored (Qt keeps its 3 bit code, `frameType` maps it back). -/
structure QCanBusFrame where
  canId : Nat
  format : FrameType
  isExtendedFrame : Bool
  isValidFrameId : Bool
  isFlexibleDataRate : Bool
  isBitrateSwitch : Bool
  isErrorStateIndicator : Bool
  load : List Byte
  stamp : TimeStamp
  deriving DecidableEq, Repr

namespace QCanBusFrame

def frameType (f : QCanBusFrame) : FrameType := f.format

def setFrameType (f : QCanBusFrame) (newFormat : FrameType) : QCanBusFrame :=
  { f with format := newFormat }

def hasExtendedFrameFormat (f : QCanBusFrame) : Bool := f.isExtendedFrame

def setExtendedFrameFormat (f : QCanBusFrame) (isExtended : Bool) : QCanBusFrame :=
  { f with isExtendedFrame := isExtended }

/-- Qt: an error frame reports identifier 0, any other frame the low 29 bits. -/
def frameId (f : QCanBusFrame) : Nat :=
  if f.format = FrameType.ErrorFrame then 0 else f.canId &&& 0x1FFFFFFF

/-- Qt: an identifier below `0x20000000` is stored and switches the frame to
the extended format when it does not fit 11 bits; a larger one is rejected. -/
def setFrameId (f : QCanBusFrame) (newFrameId : Nat) : QCanBusFrame :=
  if newFrameId < 0x20000000 then
    { f with
      isValidFrameId := true
      canId := newFrameId
      isExtendedFrame := f.isExtendedFrame || (newFrameId &&& 0x1FFFF800 != 0) }
  else
    { f with isValidFrameId := false, canId := 0 }

def payload (f : QCanBusFrame) : List Byte := f.load

/-- Qt: a payload longer than 8 bytes marks the frame as flexible data rate. -/
def setPayload (f : QCanBusFrame) (data : List Byte) : QCanBusFrame :=
  { f with
    load := data
    isFlexibleDataRate := if data.length > 8 then true else f.isFlexibleDataRate }

def setFlexibleDataRateFormat (f : QCanBusFrame) (isFlexibleData : Bool) : QCanBusFrame :=
  { f with
    isFlexibleDataRate := isFlexibleData
    isBitrateSwitch := if isFlexibleData then f.isBitrateSwitch else false
    isErrorStateIndicator := if isFlexibleData then f.isErrorStateIndicator else false }

def timeStamp (f : QCanBusFrame) : TimeStamp := f.stamp

def setTimeStamp (f : QCanBusFrame) (ts : TimeStamp) : QCanBusFrame :=
  { f with stamp := ts }

/-- The constructor `QCanBusFrame(FrameType type)`: flags cleared, then
`setFrameId(0)` and `setFrameType(type)`. -/
def create (type : FrameType) : QCanBusFrame :=
  let f : QCanBusFrame :=
    { canId := 0
      format := FrameType.UnknownFrame
      isExtendedFrame := false
      isValidFrameId := false
      isFlexibleDataRate := false
      isBitrateSwitch := false
      isErrorStateIndicator := false
      load := []
      stamp := ⟨0, 0⟩ }
  (f.setFrameId 0).setFrameType type

/-- The member `QCanBusFrame::isValid`. -/
def isValid (f : QCanBusFrame) : Bool :=
  if f.format = FrameType.InvalidFrame then false
  else if !f.isExtendedFrame && (f.canId &&& 0x1FFFF800 != 0) then false
  else if !f.isValidFrameId then false
  else
    let length := f.load.length
    if f.isFlexibleDataRate then
      if f.format = FrameType.RemoteRequestFrame then false
      else
        decide (length ≤ 8) || length == 12 || length == 16 || length == 20
          || length == 24 || length == 32 || length == 48 || length == 64
    else decide (length ≤ 8)

end QCanBusFrame

/-! ## The wire structure -/

/-- The members of `can_msg_t` that the translation unit reads or writes. A cell
of `data` is `none` while nothing has been stored in it. -/
structure can_msg_t where
  id : Nat
  id_type : Nat
  frame_type : Nat
  length : Nat
  data : List (Option Byte)
  deriving DecidableEq, Repr

/-- Reading `n` bytes starting at the first cell of an array, as
`QByteArray(ptr, n)` and `QByteArray::append(ptr, n)` do. -/
def readBytes : List (Option Byte) → Nat → Except Fault (List Byte)
  | _, 0 => .ok []
  | [], _ + 1 => .error Fault.readPastArray
  | none :: _, _ + 1 => .error Fault.indeterminateRead
  | some b :: rest, n + 1 =>
    match readBytes rest n with
    | .ok bs => .ok (b :: bs)
    | .error e => .error e

/-- The call `memcpy(dst, src, n)` with `n` the length of `src`: the first `n`
cells are overwritten, the others keep their content. -/
def memcpy (dst : List (Option Byte)) (src : List Byte) : List (Option Byte) :=
  src.map some ++ dst.drop src.length

/-- Lines 15-39: `convert(const can_msg_t&)`, wire structure to Qt frame. -/
def can_msg_t.convert (c : Consts) (frame : can_msg_t) : Except Fault QCanBusFrame :=
  let f := QCanBusFrame.create FrameType.DataFrame
  let f :=
    if frame.frame_type = c.CAN_FRAME_TYPE_ERROR then
      f.setFrameType FrameType.ErrorFrame
    else if frame.frame_type &&& c.CAN_FRAME_TYPE_REMOTE ≠ 0 then
      f.setFrameType FrameType.RemoteRequestFrame
    else
      f.setFrameType FrameType.DataFrame
  let f :=
    if frame.id_type = c.CAN_EXT then f.setExtendedFrameFormat true
    else f.setExtendedFrameFormat false
  let f := f.setFrameId frame.id
  let f := f.setFlexibleDataRateFormat false
  match readBytes frame.data frame.length with
  | .error e => .error e
  | .ok a => .ok (f.setPayload a)

/-- Lines 41-81: `convert(const QCanBusFrame&)`, Qt frame to wire structure.
The local `frame` starts with every cell of `data` unwritten. -/
def QCanBusFrame.convert (c : Consts) (qtFrame : QCanBusFrame) : Except Fault can_msg_t :=
  let frame_type :=
    match qtFrame.frameType with
    | FrameType.ErrorFrame => c.CAN_FRAME_TYPE_ERROR
    | FrameType.RemoteRequestFrame => c.CAN_FRAME_TYPE_REMOTE
    | _ => c.CAN_FRAME_TYPE_DATA
  let id_type := if qtFrame.hasExtendedFrameFormat then c.CAN_EXT else c.CAN_STD
  let payload := qtFrame.payload
  if payload.length ≤ sizeof_data then
    .ok
      { id := qtFrame.frameId
        id_type := id_type
        frame_type := frame_type
        length := payload.length
        data := memcpy (List.replicate sizeof_data none) payload }
  else .error Fault.assertPayloadSize

/-! ## The backend object -/

/-- The enumeration `QCanBusDevice::CanBusStatus`. -/
inductive CanBusStatus
  | Unknown
  | Good
  | Warning
  | Error
  | BusOff
  deriving DecidableEq, Repr

/-- The buffer argument of one `cmdCanSendType` call: `NULL`, or the address of
a `can_msg_t`. -/
inductive TxData
  | null
  | msg (m : can_msg_t)
  deriving DecidableEq, Repr

/-- One call `cmdCanSendType(&cmd_can, type, p_data, length)`. -/
structure SendCall where
  type : Nat
  p_data : TxData
  length : Nat
  deriving DecidableEq, Repr

/-- One packet that `cmdCanReceivePacket` reported: `rx_packet.type`, the first
payload byte `rx_packet.data[0]`, and the payload read as a `can_msg_t` (the
`memcpy` of line 269). -/
structure RxPacket where
  type : Nat
  data0 : Byte
  can_msg : can_msg_t
  deriving DecidableEq, Repr

/-- The members of `WiznetCanBackend` that the modelled functions touch, the
outgoing queue of the base class `QCanBusDevice`, and three logs of what the
object hands to its collaborators: the `cmdCanSendType` calls, the batches
given to `enqueueReceivedFrames`, and the arguments of `framesWritten`. -/
structure WiznetCanBackend where
  outgoingFrames : List QCanBusFrame
  receivedBatches : List (List QCanBusFrame)
  sendCalls : List SendCall
  framesWritten : List Nat
  is_connected : Bool
  can_bus_status : CanBusStatus
  ping_cnt : Nat
  offset_time : Int
  deriving DecidableEq, Repr

/-- Records one call of `cmdCanSendType`. The function is declared outside the
source tree; the model keeps the arguments of every call in `sendCalls` and
does not look inside it. -/
def cmdCanSendType (s : WiznetCanBackend) (type : Nat) (p_data : TxData) (length : Nat) :
    WiznetCanBackend :=
  { s with sendCalls := s.sendCalls ++ [⟨type, p_data, length⟩] }

/-- The member `QCanBusDevice::enqueueOutgoingFrame`: append to the queue. -/
def enqueueOutgoingFrame (s : WiznetCanBackend) (newFrame : QCanBusFrame) : WiznetCanBackend :=
  { s with outgoingFrames := s.outgoingFrames ++ [newFrame] }

/-- The member `QCanBusDevice::dequeueOutgoingFrame`: an `InvalidFrame` when the
queue is empty, else the first frame, which is removed. -/
def dequeueOutgoingFrame (s : WiznetCanBackend) : QCanBusFrame × WiznetCanBackend :=
  match s.outgoingFrames with
  | [] => (QCanBusFrame.create FrameType.InvalidFrame, s)
  | f :: rest => (f, { s with outgoingFrames := rest })

/-- The member `QCanBusDevice::enqueueReceivedFrames`: an empty batch is
ignored, any other batch is handed to the consumer. -/
def enqueueReceivedFrames (s : WiznetCanBackend) (newFrames : List QCanBusFrame) :
    WiznetCanBackend :=
  if newFrames.isEmpty then s
  else { s with receivedBatches := s.receivedBatches ++ [newFrames] }

namespace WiznetCanBackend

/-- Lines 104-130, the constructor. It leaves `is_connected` and `ping_cnt`
unset, so their initial contents are arguments. -/
def create (is_connected0 : Bool) (ping_cnt0 : Nat) : WiznetCanBackend :=
  { outgoingFrames := []
    receivedBatches := []
    sendCalls := []
    framesWritten := []
    is_connected := is_connected0
    can_bus_status := CanBusStatus.Unknown
    ping_cnt := ping_cnt0
    offset_time := -1 }

/-- Lines 132-136. -/
def writeFrame (s : WiznetCanBackend) (frame : QCanBusFrame) : Bool × WiznetCanBackend :=
  (true, enqueueOutgoingFrame s frame)

/-- Line 179. -/
def canGetStatus (s : WiznetCanBackend) : CanBusStatus := s.can_bus_status

/-- Lines 220-229, the `while` loop of `timerEvent`. One unit of fuel is spent
per evaluation of the loop condition. -/
def sendLoop (c : Consts) :
    Nat → QCanBusFrame → Nat → Nat → WiznetCanBackend → Except Fault (Nat × WiznetCanBackend)
  | 0, _, _, _, _ => .error Fault.outOfFuel
  | fuel + 1, f, framesSent, totalBytes, s =>
    if f.isValid && decide (totalBytes < MAX_BYTES_PER_TIMEOUT) then
      match f.convert c with
      | .error e => .error e
      | .ok can_msg =>
        let s := cmdCanSendType s c.PKT_TYPE_CAN (TxData.msg can_msg) c.sizeof_can_msg_t
        let fs := dequeueOutgoingFrame s
        sendLoop c fuel fs.1 (framesSent + 1) totalBytes fs.2
    else .ok (framesSent, s)

/-- Lines 238-249, the heartbeat part of `timerEvent`: the counter is advanced
(unsigned wrap-around) and every tenth value is a checkpoint. -/
def heartbeat (c : Consts) (s : WiznetCanBackend) : WiznetCanBackend :=
  let s := { s with ping_cnt := (s.ping_cnt + 1) % 2 ^ c.ping_cnt_bits }
  if s.ping_cnt % 10 = 0 then
    let s := if s.is_connected ≠ true then { s with can_bus_status := CanBusStatus.Unknown } else s
    let s := { s with is_connected := false }
    cmdCanSendType s c.PKT_TYPE_PING TxData.null 0
  else s

/-- Lines 207-250, for the timer of the backend itself (line 209). The loop is
given one unit of fuel per queued frame and one more for the evaluation at
which it exits. -/
def timerEvent (c : Consts) (s : WiznetCanBackend) : Except Fault WiznetCanBackend :=
  let fuel := s.outgoingFrames.length + 1
  let fs := dequeueOutgoingFrame s
  match sendLoop c fuel fs.1 0 0 fs.2 with
  | .error e => .error e
  | .ok (framesSent, s) =>
    let s :=
      if framesSent ≠ 0 then { s with framesWritten := s.framesWritten ++ [framesSent] }
      else s
    .ok (heartbeat c s)

/-- Lines 295-310: the status a ping reply byte is classified as. -/
def pingStatus (c : Consts) (status : Byte) : CanBusStatus :=
  if status.val = CAN_ERR_NONE then CanBusStatus.Good
  else if status.val &&& c.CAN_ERR_BUS_OFF ≠ 0 then CanBusStatus.BusOff
  else if status.val &&& c.CAN_ERR_WARNING ≠ 0 then CanBusStatus.Warning
  else CanBusStatus.Error

/-- Lines 262-311: what `handlePacket` does with one packet for which
`cmdCanReceivePacket` returned true. `t1` and `t2` are the two readings of
`currentMSecsSinceEpoch()` (lines 277 and 279). -/
def handleRxPacket (c : Consts) (p : RxPacket) (t1 t2 : Int) (s : WiznetCanBackend) :
    Except Fault WiznetCanBackend :=
  let r : Except Fault WiznetCanBackend :=
    if p.type = c.PKT_TYPE_CAN then
      let frame := QCanBusFrame.create FrameType.DataFrame
      let can_msg := p.can_msg
      match readBytes can_msg.data can_msg.length with
      | .error e => .error e
      | .ok frame_data =>
        let s := if s.offset_time < 0 then { s with offset_time := t1 } else s
        let time_msec := t2 - s.offset_time
        let frame :=
          frame.setTimeStamp ⟨Int.tdiv time_msec 1000, Int.tmod time_msec 1000 * 1000⟩
        let frame := frame.setFrameId can_msg.id
        let frame := frame.setPayload frame_data
        .ok (enqueueReceivedFrames s [frame])
    else .ok s
  match r with
  | .error e => .error e
  | .ok s =>
    if p.type = c.PKT_TYPE_PING then
      let s := { s with is_connected := true }
      .ok { s with can_bus_status := pingStatus c p.data0 }
    else .ok s

/-- One decoded packet together with the clock readings taken while it is
handled. -/
structure Decoded where
  packet : RxPacket
  t1 : Int
  t2 : Int

/-- Lines 252-314. The functions `qbufferWrite`, `qbufferAvailable` and
`cmdCanReceivePacket` are declared outside the source tree, so the sequence of
packets for which `cmdCanReceivePacket` returns true while the loop of line 258
runs is an argument; the body of line 260 is applied to each in turn. -/
def handlePacket (c : Consts) : List Decoded → WiznetCanBackend → Except Fault WiznetCanBackend
  | [], s => .ok s
  | d :: rest, s =>
    match handleRxPacket c d.packet d.t1 d.t2 s with
    | .error e => .error e
    | .ok s => handlePacket c rest s

end WiznetCanBackend

/-- Lines 143-168. `bindOk` is the result of `sock_.bind`. -/
def WiznetCanBackend.open (c : Consts) (bindOk : Bool) (s : WiznetCanBackend) : Bool × WiznetCanBackend :=
  if !bindOk then (false, s)
  else
    let s := { s with is_connected := false }
    let s := { s with can_bus_status := CanBusStatus.Unknown }
    let s := cmdCanSendType s c.PKT_TYPE_PING TxData.null 0
    (true, { s with ping_cnt := 0 })

/-! ## Runs of the event loop -/

/-- What the single-threaded Qt event loop can deliver to an open backend. -/
inductive Event
  /-- The timer fires: `timerEvent`. -/
  | tick
  /-- One datagram from the peer: `handlePacket`, decoding to these packets. -/
  | datagram (decoded : List WiznetCanBackend.Decoded)
  /-- The application calls `writeFrame`. -/
  | write (frame : QCanBusFrame)

def step (c : Consts) (e : Event) (s : WiznetCanBackend) : Except Fault WiznetCanBackend :=
  match e with
  | Event.tick => s.timerEvent c
  | Event.datagram decoded => WiznetCanBackend.handlePacket c decoded s
  | Event.write frame => .ok (s.writeFrame frame).2

def run (c : Consts) : List Event → WiznetCanBackend → Except Fault WiznetCanBackend
  | [], s => .ok s
  | e :: rest, s =>
    match step c e s with
    | .error err => .error err
    | .ok s => run c rest s

/-- The number of timer ticks in a run. -/
def ticks : List Event → Nat
  | [] => 0
  | Event.tick :: rest => ticks rest + 1
  | _ :: rest => ticks rest

/-- A sample assignment of the header constants, for evaluating the model on
concrete inputs. -/
def sampleConsts : Consts :=
  { CAN_FRAME_TYPE_DATA := 0
    CAN_FRAME_TYPE_REMOTE := 1
    CAN_FRAME_TYPE_ERROR := 2
    CAN_STD := 0
    CAN_EXT := 1
    CAN_ERR_BUS_OFF := 4
    CAN_ERR_WARNING := 2
    PKT_TYPE_PING := 1
    PKT_TYPE_CAN := 2
    sizeof_can_msg_t := 16
    ping_cnt_bits := 32 }

/-! ## Closed forms used in the proofs -/

/-- The wire structure that `QCanBusFrame.convert` returns for a frame whose
payload fits (see `QCanBusFrame.convert_fits`). -/
def wireOf (c : Consts) (f : QCanBusFrame) : can_msg_t :=
  { id := f.frameId
    id_type := if f.isExtendedFrame = true then c.CAN_EXT else c.CAN_STD
    frame_type :=
      if f.format = FrameType.ErrorFrame then c.CAN_FRAME_TYPE_ERROR
      else if f.format = FrameType.RemoteRequestFrame then c.CAN_FRAME_TYPE_REMOTE
      else c.CAN_FRAME_TYPE_DATA
    length := f.load.length
    data := memcpy (List.replicate 8 none) f.load }

/-- The `cmdCanSendType` call of line 225 for one frame. -/
def canCall (c : Consts) (f : QCanBusFrame) : SendCall :=
  ⟨c.PKT_TYPE_CAN, TxData.msg (wireOf c f), c.sizeof_can_msg_t⟩

/-- The state in which the egress part of a tick leaves the backend (see
`timerEvent_eq`): the leading valid frames are sent, the frame after them is
dropped, one `framesWritten` is emitted when something was sent. -/
def flushed (c : Consts) (s : WiznetCanBackend) : WiznetCanBackend :=
  let sent := s.outgoingFrames.takeWhile QCanBusFrame.isValid
  { s with
    outgoingFrames := (s.outgoingFrames.dropWhile QCanBusFrame.isValid).drop 1
    sendCalls := s.sendCalls ++ sent.map (canCall c)
    framesWritten := s.framesWritten ++ (if sent.length ≠ 0 then [sent.length] else []) }

/-- The condition of line 240 as the next tick will evaluate it. -/
def checkpointDue (c : Consts) (s : WiznetCanBackend) : Prop :=
  (s.ping_cnt + 1) % 2 ^ c.ping_cnt_bits % 10 = 0

instance (c : Consts) (s : WiznetCanBackend) : Decidable (checkpointDue c s) :=
  inferInstanceAs (Decidable ((s.ping_cnt + 1) % 2 ^ c.ping_cnt_bits % 10 = 0))

/-- The number of ticks up to and including the next checkpoint: the counter
reaches a multiple of ten or wraps to zero, whichever comes first. -/
def untilCheckpoint (c : Consts) (s : WiznetCanBackend) : Nat :=
  min (10 - s.ping_cnt % 10) (2 ^ c.ping_cnt_bits - s.ping_cnt)

/-- The number of ticks without a ping reply after which the status is
certainly `Unknown`: the next checkpoint, and one more window when the
reply-seen flag is still set. -/
def ticksToUnknown (c : Consts) (s : WiznetCanBackend) : Nat :=
  untilCheckpoint c s + (if s.is_connected = true then 10 else 0)

/-- State `t` has the link status, reply-seen flag, tick counter and outgoing
queue of state `s`. -/
def SameLink (s t : WiznetCanBackend) : Prop :=
  t.can_bus_status = s.can_bus_status ∧ t.is_connected = s.is_connected ∧
    t.ping_cnt = s.ping_cnt ∧ t.outgoingFrames = s.outgoingFrames

/-- The `cmdCanSendType` calls that were added between state `s` and the later
state `t`. -/
def callsSince (s t : WiznetCanBackend) : List SendCall :=
  t.sendCalls.drop s.sendCalls.length

/-- The `length` bytes that lines 36 and 272 read from `data` were all written
and lie inside the array. -/
def can_msg_t.readable (m : can_msg_t) : Bool :=
  match readBytes m.data m.length with
  | .ok _ => true
  | .error _ => false

/-- Every queued frame has a payload that fits `can_msg_t::data`, so the
assertion of line 75 holds when the frame is encoded. -/
def QueueFits (s : WiznetCanBackend) : Prop :=
  ∀ g ∈ s.outgoingFrames, g.load.length ≤ 8

instance (s : WiznetCanBackend) : Decidable (QueueFits s) :=
  inferInstanceAs (Decidable (∀ g ∈ s.outgoingFrames, g.load.length ≤ 8))

/-- An event that stays inside defined behaviour: a written frame has a payload
of at most 8 bytes, a received CAN packet has a readable payload. -/
def Event.safe (c : Consts) : Event → Prop
  | Event.tick => True
  | Event.datagram decoded =>
    ∀ d ∈ decoded, d.packet.type = c.PKT_TYPE_CAN → d.packet.can_msg.readable = true
  | Event.write frame => frame.load.length ≤ 8

instance (c : Consts) : (e : Event) → Decidable (e.safe c)
  | Event.tick => inferInstanceAs (Decidable True)
  | Event.datagram decoded =>
    inferInstanceAs (Decidable (∀ d ∈ decoded,
      d.packet.type = c.PKT_TYPE_CAN → d.packet.can_msg.readable = true))
  | Event.write frame => inferInstanceAs (Decidable (frame.load.length ≤ 8))

/-- An event that handles no ping reply. -/
def Event.noPing (c : Consts) : Event → Prop
  | Event.datagram decoded => ∀ d ∈ decoded, d.packet.type ≠ c.PKT_TYPE_PING
  | _ => True

instance (c : Consts) : (e : Event) → Decidable (e.noPing c)
  | Event.tick => inferInstanceAs (Decidable True)
  | Event.datagram decoded =>
    inferInstanceAs (Decidable (∀ d ∈ decoded, d.packet.type ≠ c.PKT_TYPE_PING))
  | Event.write _ => inferInstanceAs (Decidable True)

/-! ## Sample inputs -/

/-- A backend that was constructed and then opened. -/
def sampleOpened : WiznetCanBackend :=
  ((WiznetCanBackend.create false 0).open sampleConsts true).2

/-- A decoded ping reply with the given status byte. -/
def samplePingReply (status : Byte) : WiznetCanBackend.Decoded :=
  ⟨⟨sampleConsts.PKT_TYPE_PING, status, ⟨0, 0, 0, 0, List.replicate 8 (some 0)⟩⟩, 0, 0⟩

/-- A standard data frame with identifier `0x123` and three payload bytes. -/
def sampleFrame : QCanBusFrame :=
  ((QCanBusFrame.create FrameType.DataFrame).setFrameId 0x123).setPayload [1, 2, 3]

/-- An extended remote request frame with identifier `0x123`. -/
def sampleRemoteFrame : QCanBusFrame :=
  (((QCanBusFrame.create FrameType.RemoteRequestFrame).setExtendedFrameFormat true).setFrameId
    0x123)

/-- The wire structure of an extended remote request with identifier `0x123`,
as the adapter sends it. -/
def sampleRemoteMsg : can_msg_t :=
  { id := 0x123
    id_type := sampleConsts.CAN_EXT
    frame_type := sampleConsts.CAN_FRAME_TYPE_REMOTE
    length := 0
    data := List.replicate 8 (some 0) }

/-- A decoded CAN packet that carries `sampleRemoteMsg`. -/
def sampleCanPacket : WiznetCanBackend.Decoded :=
  ⟨⟨sampleConsts.PKT_TYPE_CAN, 0, sampleRemoteMsg⟩, 1000, 1000⟩

/-- An opened backend on which `writeFrame` was called 1922 times. -/
def sampleBacklog : WiznetCanBackend :=
  { sampleOpened with outgoingFrames := List.replicate 1922 sampleFrame }

/-- An opened backend with two frames queued and nine ticks counted. -/
def sampleBeforeCheckpoint : WiznetCanBackend :=
  { sampleOpened with
    outgoingFrames := [sampleFrame, sampleRemoteFrame]
    is_connected := true
    can_bus_status := CanBusStatus.Good
    ping_cnt := 9 }

/-! ## Lemmas -/

/-- Reading back what `memcpy` stored returns the stored bytes. -/
theorem readBytes_memcpy (dst : List (Option Byte)) (src : List Byte) :
    readBytes (memcpy dst src) src.length = .ok src := by
  induction src generalizing dst with
  | nil => simp [memcpy, readBytes]
  | cons b rest ih =>
    have h := ih (dst.drop 1)
    simp only [memcpy, List.map_cons, List.cons_append, List.length_cons, readBytes] at h ⊢
    simp only [List.drop_drop] at h
    rw [Nat.add_comm] at h
    show (match readBytes (List.map some rest ++ List.drop (rest.length + 1) dst) rest.length with
      | Except.ok bs => Except.ok (b :: bs)
      | Except.error e => Except.error e) = Except.ok (b :: rest)
    rw [h]

/-- An identifier of at most 11 bits has none of the bits that Qt tests to
switch a frame to the extended format. -/
theorem and_high_bits_eq_zero (n : Nat) (h : n ≤ 0x7FF) : n &&& 0x1FFFF800 = 0 := by
  apply Nat.eq_of_testBit_eq
  intro i
  rw [Nat.testBit_and, Nat.zero_testBit]
  by_cases hi : i < 11
  · have : Nat.testBit 0x1FFFF800 i = false := by
      interval_cases i <;> rfl
    simp [this]
  · have hn : n < 2 ^ i := by
      have : 2 ^ 11 ≤ 2 ^ i := Nat.pow_le_pow_right (by decide) (by omega)
      omega
    simp [Nat.testBit_lt_two_pow hn]

/-- The value of `frameId()` is below the bound that `setFrameId` accepts. -/
theorem and_low29_lt (n : Nat) : n &&& 0x1FFFFFFF < 0x20000000 := by
  have := @Nat.and_le_right n 0x1FFFFFFF
  omega

/-- Encoding a frame with at most 8 payload bytes succeeds, with value
`wireOf`. -/
theorem QCanBusFrame.convert_fits (c : Consts) (f : QCanBusFrame) (hlen : f.load.length ≤ 8) :
    f.convert c = .ok (wireOf c f) := by
  obtain ⟨canId, format, isExt, isValidId, isFD, isBRS, isESI, load, stamp⟩ := f
  simp only [QCanBusFrame.convert, QCanBusFrame.payload, QCanBusFrame.frameType,
    QCanBusFrame.hasExtendedFrameFormat, sizeof_data, wireOf] at hlen ⊢
  rw [if_pos hlen]
  cases format <;> simp

/-- Decoding a wire structure whose payload can be read and whose identifier is
below `0x20000000` succeeds; the members of the result. -/
theorem can_msg_t.convert_reads (c : Consts) (m : can_msg_t) (a : List Byte)
    (hread : readBytes m.data m.length = .ok a) (hid : m.id < 0x20000000) :
    ∃ g, m.convert c = .ok g ∧
      g.format =
        (if m.frame_type = c.CAN_FRAME_TYPE_ERROR then FrameType.ErrorFrame
         else if m.frame_type &&& c.CAN_FRAME_TYPE_REMOTE ≠ 0 then FrameType.RemoteRequestFrame
         else FrameType.DataFrame) ∧
      g.isExtendedFrame = (decide (m.id_type = c.CAN_EXT) || (m.id &&& 0x1FFFF800 != 0)) ∧
      g.canId = m.id ∧
      g.load = a := by
  simp only [can_msg_t.convert, hread]
  refine ⟨_, rfl, ?_, ?_, ?_, ?_⟩
  · simp only [QCanBusFrame.setPayload, QCanBusFrame.setFlexibleDataRateFormat,
      QCanBusFrame.setFrameId, QCanBusFrame.setExtendedFrameFormat, QCanBusFrame.setFrameType,
      QCanBusFrame.create, if_pos hid]
    split_ifs <;> rfl
  · simp only [QCanBusFrame.setPayload, QCanBusFrame.setFlexibleDataRateFormat,
      QCanBusFrame.setFrameId, QCanBusFrame.setExtendedFrameFormat, QCanBusFrame.setFrameType,
      QCanBusFrame.create, if_pos hid]
    split_ifs <;> simp_all
  · simp only [QCanBusFrame.setPayload, QCanBusFrame.setFlexibleDataRateFormat,
      QCanBusFrame.setFrameId, if_pos hid]
  · simp only [QCanBusFrame.setPayload]

/-- The frame that `dequeueOutgoingFrame` returns for an empty queue is not
valid. -/
theorem isValid_create_invalid : (QCanBusFrame.create FrameType.InvalidFrame).isValid = false := by
  decide

/-- The budget test of line 220 holds for `totalBytes = 0`. -/
theorem budget_open : decide (0 < MAX_BYTES_PER_TIMEOUT) = true := by decide

/-- The loop of lines 220-229, started with frame `f` and queue `q`, sends the
leading valid frames of `f :: q`, drops the frame after them and keeps the
rest, whenever the fuel is at least the length of `q` plus two. -/
theorem sendLoop_eq (c : Consts) (q : List QCanBusFrame) :
    ∀ (f : QCanBusFrame) (fuel n : Nat) (s : WiznetCanBackend),
      s.outgoingFrames = q →
      (∀ g ∈ f :: q, g.load.length ≤ 8) →
      q.length + 2 ≤ fuel →
      WiznetCanBackend.sendLoop c fuel f n 0 s = .ok
        (n + ((f :: q).takeWhile QCanBusFrame.isValid).length,
         { s with
           outgoingFrames := ((f :: q).dropWhile QCanBusFrame.isValid).drop 1
           sendCalls := s.sendCalls ++ ((f :: q).takeWhile QCanBusFrame.isValid).map (canCall c) }) := by
  induction q with
  | nil =>
    rintro f fuel n ⟨qq, rb, sc, fw, ic, st, pc, ot⟩ hq hlen hfuel
    simp only at hq
    subst hq
    obtain ⟨k, rfl⟩ : ∃ k, fuel = k + 2 := ⟨fuel - 2, by simp at hfuel; omega⟩
    cases hv : f.isValid
    · simp [WiznetCanBackend.sendLoop, hv]
    · have hc := QCanBusFrame.convert_fits c f (hlen f (by simp))
      simp [WiznetCanBackend.sendLoop, hv, hc, budget_open, dequeueOutgoingFrame, cmdCanSendType,
        isValid_create_invalid, canCall]
  | cons g q ih =>
    rintro f fuel n ⟨qq, rb, sc, fw, ic, st, pc, ot⟩ hq hlen hfuel
    simp only at hq
    subst hq
    obtain ⟨k, rfl⟩ : ∃ k, fuel = k + 1 := ⟨fuel - 1, by simp at hfuel; omega⟩
    cases hv : f.isValid
    · simp [WiznetCanBackend.sendLoop, hv]
    · have hc := QCanBusFrame.convert_fits c f (hlen f (by simp))
      have := ih g k (n + 1)
        { cmdCanSendType ⟨g :: q, rb, sc, fw, ic, st, pc, ot⟩ c.PKT_TYPE_CAN
            (TxData.msg (wireOf c f)) c.sizeof_can_msg_t with
          outgoingFrames := q } rfl
        (fun x hx => hlen x (List.mem_cons_of_mem _ hx)) (by simp at hfuel; omega)
      simp only [WiznetCanBackend.sendLoop, hv, hc, budget_open, dequeueOutgoingFrame, cmdCanSendType,
        Bool.and_self, if_true]
      simp only [cmdCanSendType] at this
      rw [this]
      simp [hv, canCall, List.takeWhile_cons, List.dropWhile_cons]
      omega

/-- A tick on a queue that fits completes: it is the heartbeat part applied to
the flushed state. -/
theorem timerEvent_eq (c : Consts) (s : WiznetCanBackend) (hq : QueueFits s) :
    s.timerEvent c = .ok (WiznetCanBackend.heartbeat c (flushed c s)) := by
  obtain ⟨q, rb, sc, fw, ic, st, pc, ot⟩ := s
  cases q with
  | nil =>
    simp [WiznetCanBackend.timerEvent, dequeueOutgoingFrame, WiznetCanBackend.sendLoop,
      isValid_create_invalid, flushed]
  | cons f q =>
    have h := sendLoop_eq c q f (q.length + 2) 0 ⟨q, rb, sc, fw, ic, st, pc, ot⟩ rfl hq (le_refl _)
    simp only [WiznetCanBackend.timerEvent, dequeueOutgoingFrame, List.length_cons]
    rw [h]
    cases hv : f.isValid <;> simp [flushed, hv]

/-- Flushing keeps the queue within the payload bound. -/
theorem flushed_fits (c : Consts) (s : WiznetCanBackend) (hq : QueueFits s) :
    QueueFits (flushed c s) := by
  intro g hg
  apply hq
  simp only [flushed] at hg
  exact List.dropWhile_subset _ (List.mem_of_mem_drop hg)

/-- The heartbeat part at a checkpoint. -/
theorem heartbeat_due (c : Consts) (s : WiznetCanBackend) (h : checkpointDue c s) :
    WiznetCanBackend.heartbeat c s =
      { s with
        ping_cnt := (s.ping_cnt + 1) % 2 ^ c.ping_cnt_bits
        can_bus_status := if s.is_connected = true then s.can_bus_status else CanBusStatus.Unknown
        is_connected := false
        sendCalls := s.sendCalls ++ [⟨c.PKT_TYPE_PING, TxData.null, 0⟩] } := by
  unfold checkpointDue at h
  simp only [WiznetCanBackend.heartbeat, h, if_true, cmdCanSendType]
  cases s.is_connected <;> simp

/-- The heartbeat part between checkpoints only advances the counter. -/
theorem heartbeat_not_due (c : Consts) (s : WiznetCanBackend) (h : ¬ checkpointDue c s) :
    WiznetCanBackend.heartbeat c s =
      { s with ping_cnt := (s.ping_cnt + 1) % 2 ^ c.ping_cnt_bits } := by
  unfold checkpointDue at h
  simp only [WiznetCanBackend.heartbeat, h, if_false]

/-- A wire structure is readable exactly when `readBytes` succeeds on it. -/
theorem readable_iff (m : can_msg_t) :
    m.readable = true ↔ ∃ a, readBytes m.data m.length = .ok a := by
  unfold can_msg_t.readable
  cases h : readBytes m.data m.length <;> simp

/-- Handling a ping reply sets the flag and stores the classified status. -/
theorem handleRxPacket_ping (c : Consts) (p : RxPacket) (t1 t2 : Int) (s : WiznetCanBackend)
    (hp : p.type = c.PKT_TYPE_PING) (hne : c.PKT_TYPE_PING ≠ c.PKT_TYPE_CAN) :
    WiznetCanBackend.handleRxPacket c p t1 t2 s =
      .ok { s with is_connected := true, can_bus_status := WiznetCanBackend.pingStatus c p.data0 } := by
  simp [WiznetCanBackend.handleRxPacket, hp, hne]

/-- Handling a packet that is no ping reply leaves status, flag, counter and
queue as they are. -/
theorem handleRxPacket_noPing (c : Consts) (p : RxPacket) (t1 t2 : Int) (s : WiznetCanBackend)
    (hp : p.type ≠ c.PKT_TYPE_PING)
    (hr : p.type = c.PKT_TYPE_CAN → p.can_msg.readable = true) :
    ∃ t, WiznetCanBackend.handleRxPacket c p t1 t2 s = .ok t ∧ SameLink s t := by
  by_cases hc : p.type = c.PKT_TYPE_CAN
  · obtain ⟨a, ha⟩ := (readable_iff _).1 (hr hc)
    simp only [WiznetCanBackend.handleRxPacket, hc, ha, if_true]
    rw [if_neg (hc ▸ hp)]
    refine ⟨_, rfl, ?_⟩
    simp only [enqueueReceivedFrames, SameLink]
    split_ifs <;> simp
  · exact ⟨s, by simp [WiznetCanBackend.handleRxPacket, hc, hp], rfl, rfl, rfl, rfl⟩

/-- The relation `SameLink` composes. -/
theorem SameLink.trans {s t u : WiznetCanBackend} (h1 : SameLink s t) (h2 : SameLink t u) :
    SameLink s u := by
  obtain ⟨a1, b1, c1, d1⟩ := h1
  obtain ⟨a2, b2, c2, d2⟩ := h2
  exact ⟨a2.trans a1, b2.trans b1, c2.trans c1, d2.trans d1⟩

/-- A datagram without ping replies leaves status, flag, counter and queue as
they are. -/
theorem handlePacket_noPing (c : Consts) (ds : List WiznetCanBackend.Decoded) :
    ∀ s : WiznetCanBackend,
      (∀ d ∈ ds, d.packet.type ≠ c.PKT_TYPE_PING) →
      (∀ d ∈ ds, d.packet.type = c.PKT_TYPE_CAN → d.packet.can_msg.readable = true) →
      ∃ t, WiznetCanBackend.handlePacket c ds s = .ok t ∧ SameLink s t := by
  induction ds with
  | nil => intro s _ _; exact ⟨s, rfl, rfl, rfl, rfl, rfl⟩
  | cons d ds ih =>
    intro s hp hr
    obtain ⟨t, ht, hst⟩ := handleRxPacket_noPing c d.packet d.t1 d.t2 s
      (hp d (by simp)) (hr d (by simp))
    obtain ⟨u, hu, htu⟩ := ih t (fun x hx => hp x (List.mem_cons_of_mem _ hx))
      (fun x hx => hr x (List.mem_cons_of_mem _ hx))
    exact ⟨u, by simp only [WiznetCanBackend.handlePacket, ht, hu], hst.trans htu⟩

/-- Handling any safe packet completes and leaves counter and queue as they
are. -/
theorem handleRxPacket_safe (c : Consts) (p : RxPacket) (t1 t2 : Int) (s : WiznetCanBackend)
    (hr : p.type = c.PKT_TYPE_CAN → p.can_msg.readable = true) :
    ∃ t, WiznetCanBackend.handleRxPacket c p t1 t2 s = .ok t ∧
      t.ping_cnt = s.ping_cnt ∧ t.outgoingFrames = s.outgoingFrames := by
  by_cases hp : p.type = c.PKT_TYPE_PING
  · by_cases hc : p.type = c.PKT_TYPE_CAN
    · obtain ⟨a, ha⟩ := (readable_iff _).1 (hr hc)
      simp only [WiznetCanBackend.handleRxPacket, hc, ha, if_true]
      rw [if_pos (hc ▸ hp)]
      refine ⟨_, rfl, ?_⟩
      simp only [enqueueReceivedFrames]
      split_ifs <;> simp
    · exact ⟨_, handleRxPacket_ping c p t1 t2 s hp (fun h => hc (hp.trans h)), rfl, rfl⟩
  · obtain ⟨t, ht, _, _, h3, h4⟩ := handleRxPacket_noPing c p t1 t2 s hp hr
    exact ⟨t, ht, h3, h4⟩

/-- Handling any safe datagram completes and leaves counter and queue as they
are. -/
theorem handlePacket_safe (c : Consts) (ds : List WiznetCanBackend.Decoded) :
    ∀ s : WiznetCanBackend,
      (∀ d ∈ ds, d.packet.type = c.PKT_TYPE_CAN → d.packet.can_msg.readable = true) →
      ∃ t, WiznetCanBackend.handlePacket c ds s = .ok t ∧
        t.ping_cnt = s.ping_cnt ∧ t.outgoingFrames = s.outgoingFrames := by
  induction ds with
  | nil => intro s _; exact ⟨s, rfl, rfl, rfl⟩
  | cons d ds ih =>
    intro s hr
    obtain ⟨t, ht, h1, h2⟩ := handleRxPacket_safe c d.packet d.t1 d.t2 s (hr d (by simp))
    obtain ⟨u, hu, h3, h4⟩ := ih t (fun x hx => hr x (List.mem_cons_of_mem _ hx))
    exact ⟨u, by simp only [WiznetCanBackend.handlePacket, ht, hu], h3.trans h1, h4.trans h2⟩

/-! ### Arithmetic of the tick counter -/

/-- Advancing a counter below `m` modulo `m`. -/
theorem succ_mod_cases (x m : Nat) (h : x < m) :
    (x + 1) % m = if x + 1 = m then 0 else x + 1 := by
  split_ifs with hx
  · rw [hx, Nat.mod_self]
  · exact Nat.mod_eq_of_lt (by omega)

/-- The next tick is a checkpoint exactly when one tick remains. -/
theorem due_iff (c : Consts) (s : WiznetCanBackend) (h : s.ping_cnt < 2 ^ c.ping_cnt_bits) :
    checkpointDue c s ↔ untilCheckpoint c s = 1 := by
  unfold checkpointDue untilCheckpoint
  rw [succ_mod_cases _ _ h]
  generalize 2 ^ c.ping_cnt_bits = m at h ⊢
  split_ifs with hx <;> omega

/-- A checkpoint is between 1 and 10 ticks away. -/
theorem untilCheckpoint_bounds (c : Consts) (s : WiznetCanBackend)
    (h : s.ping_cnt < 2 ^ c.ping_cnt_bits) :
    1 ≤ untilCheckpoint c s ∧ untilCheckpoint c s ≤ 10 := by
  unfold untilCheckpoint
  generalize 2 ^ c.ping_cnt_bits = m at h ⊢
  omega

/-- A tick that is no checkpoint brings the next checkpoint one tick closer. -/
theorem untilCheckpoint_succ (c : Consts) (s t : WiznetCanBackend)
    (h : s.ping_cnt < 2 ^ c.ping_cnt_bits) (hd : ¬ checkpointDue c s)
    (ht : t.ping_cnt = (s.ping_cnt + 1) % 2 ^ c.ping_cnt_bits) :
    untilCheckpoint c t = untilCheckpoint c s - 1 := by
  unfold checkpointDue at hd
  unfold untilCheckpoint
  rw [ht]
  rw [succ_mod_cases _ _ h] at hd ⊢
  generalize 2 ^ c.ping_cnt_bits = m at h hd ⊢
  split_ifs at hd ⊢ with hx <;> omega

/-- The advanced counter is in range. -/
theorem succ_mod_lt (c : Consts) (x : Nat) : (x + 1) % 2 ^ c.ping_cnt_bits < 2 ^ c.ping_cnt_bits :=
  Nat.mod_lt _ (Nat.pos_pow_of_pos _ (by decide))

/-- What a tick does to queue bound, counter, flag and status. -/
theorem tick_facts (c : Consts) (s : WiznetCanBackend) (hq : QueueFits s) :
    ∃ t, step c Event.tick s = .ok t ∧ QueueFits t ∧
      t.ping_cnt = (s.ping_cnt + 1) % 2 ^ c.ping_cnt_bits ∧
      (checkpointDue c s → t.is_connected = false ∧
        t.can_bus_status =
          if s.is_connected = true then s.can_bus_status else CanBusStatus.Unknown) ∧
      (¬ checkpointDue c s → t.is_connected = s.is_connected ∧
        t.can_bus_status = s.can_bus_status) := by
  refine ⟨_, timerEvent_eq c s hq, ?_, ?_, ?_, ?_⟩
  · have hf := flushed_fits c s hq
    by_cases hd : checkpointDue c (flushed c s)
    · rw [heartbeat_due c _ hd]; exact hf
    · rw [heartbeat_not_due c _ hd]; exact hf
  · by_cases hd : checkpointDue c (flushed c s)
    · rw [heartbeat_due c _ hd]; rfl
    · rw [heartbeat_not_due c _ hd]; rfl
  · intro hd
    have hd2 : checkpointDue c (flushed c s) := hd
    rw [heartbeat_due c _ hd2]
    exact ⟨rfl, rfl⟩
  · intro hd
    have hd2 : ¬ checkpointDue c (flushed c s) := hd
    rw [heartbeat_not_due c _ hd2]
    exact ⟨rfl, rfl⟩

/-- What a safe datagram does to queue bound, counter, flag and status. -/
theorem datagram_facts (c : Consts) (ds : List WiznetCanBackend.Decoded) (s : WiznetCanBackend)
    (hq : QueueFits s) (hs : (Event.datagram ds).safe c) :
    ∃ t, step c (Event.datagram ds) s = .ok t ∧ QueueFits t ∧ t.ping_cnt = s.ping_cnt ∧
      ((Event.datagram ds).noPing c →
        t.is_connected = s.is_connected ∧ t.can_bus_status = s.can_bus_status) := by
  obtain ⟨t, ht, h1, h2⟩ := handlePacket_safe c ds s hs
  refine ⟨t, ht, ?_, h1, ?_⟩
  · intro g hg; rw [h2] at hg; exact hq g hg
  · intro hn
    obtain ⟨u, hu, h3, h4, _, _⟩ := handlePacket_noPing c ds s hn hs
    have : t = u := by
      have := ht.symm.trans hu
      exact Except.ok.inj this
    subst this
    exact ⟨h4, h3⟩

/-- What a safe `writeFrame` does to queue bound, counter, flag and status. -/
theorem write_facts (c : Consts) (f : QCanBusFrame) (s : WiznetCanBackend)
    (hq : QueueFits s) (hs : (Event.write f).safe c) :
    ∃ t, step c (Event.write f) s = .ok t ∧ QueueFits t ∧ t.ping_cnt = s.ping_cnt ∧
      t.is_connected = s.is_connected ∧ t.can_bus_status = s.can_bus_status := by
  refine ⟨_, rfl, ?_, rfl, rfl, rfl⟩
  intro g hg
  simp only [WiznetCanBackend.writeFrame, enqueueOutgoingFrame, List.mem_append,
    List.mem_singleton] at hg
  rcases hg with hg | hg
  · exact hq g hg
  · rw [hg]; exact hs

/-- The distance to the next checkpoint depends on the counter only. -/
theorem untilCheckpoint_congr (c : Consts) (s t : WiznetCanBackend) (h : t.ping_cnt = s.ping_cnt) :
    untilCheckpoint c t = untilCheckpoint c s := by
  unfold untilCheckpoint; rw [h]

/-- Without ping replies, a clear flag and status Unknown persist. -/
theorem run_keeps_unknown (c : Consts) (es : List Event) :
    ∀ s : WiznetCanBackend, QueueFits s → (∀ e ∈ es, e.safe c) → (∀ e ∈ es, e.noPing c) →
      s.is_connected = false → s.can_bus_status = CanBusStatus.Unknown →
      ∃ t, run c es s = .ok t ∧ t.can_bus_status = CanBusStatus.Unknown := by
  induction es with
  | nil => intro s _ _ _ _ hu; exact ⟨s, rfl, hu⟩
  | cons e es ih =>
    intro s hq hs hn hf hu
    have hs2 : ∀ x ∈ es, x.safe c := fun x hx => hs x (List.mem_cons_of_mem _ hx)
    have hn2 : ∀ x ∈ es, x.noPing c := fun x hx => hn x (List.mem_cons_of_mem _ hx)
    have key : ∃ t, step c e s = .ok t ∧ QueueFits t ∧ t.is_connected = false ∧
        t.can_bus_status = CanBusStatus.Unknown := by
      cases e with
      | tick =>
        obtain ⟨t, ht, hqt, _, hd, hnd⟩ := tick_facts c s hq
        refine ⟨t, ht, hqt, ?_⟩
        by_cases h : checkpointDue c s
        · obtain ⟨a, b⟩ := hd h
          exact ⟨a, by rw [b, hf]; simp⟩
        · obtain ⟨a, b⟩ := hnd h
          exact ⟨a.trans hf, b.trans hu⟩
      | datagram ds =>
        obtain ⟨t, ht, hqt, _, h⟩ := datagram_facts c ds s hq (hs _ (by simp))
        obtain ⟨a, b⟩ := h (hn _ (by simp))
        exact ⟨t, ht, hqt, a.trans hf, b.trans hu⟩
      | write f =>
        obtain ⟨t, ht, hqt, _, a, b⟩ := write_facts c f s hq (hs _ (by simp))
        exact ⟨t, ht, hqt, a.trans hf, b.trans hu⟩
    obtain ⟨t, ht, hqt, hft, hut⟩ := key
    obtain ⟨u, hu2, hfin⟩ := ih t hqt hs2 hn2 hft hut
    exact ⟨u, by simp only [run, ht, hu2], hfin⟩

/-- Without ping replies the status is Unknown once `ticksToUnknown` ticks have
passed. -/
theorem run_reaches_unknown (c : Consts) (es : List Event) :
    ∀ s : WiznetCanBackend, QueueFits s → s.ping_cnt < 2 ^ c.ping_cnt_bits →
      (∀ e ∈ es, e.safe c) → (∀ e ∈ es, e.noPing c) →
      ticksToUnknown c s ≤ ticks es →
      ∃ t, run c es s = .ok t ∧ t.can_bus_status = CanBusStatus.Unknown := by
  induction es with
  | nil =>
    intro s _ hc _ _ hk
    have := (untilCheckpoint_bounds c s hc).1
    simp only [ticksToUnknown, ticks] at hk
    omega
  | cons e es ih =>
    intro s hq hc hs hn hk
    have hs2 : ∀ x ∈ es, x.safe c := fun x hx => hs x (List.mem_cons_of_mem _ hx)
    have hn2 : ∀ x ∈ es, x.noPing c := fun x hx => hn x (List.mem_cons_of_mem _ hx)
    cases e with
    | tick =>
      obtain ⟨t, ht, hqt, hpc, hd, hnd⟩ := tick_facts c s hq
      have hct : t.ping_cnt < 2 ^ c.ping_cnt_bits := hpc ▸ succ_mod_lt c _
      simp only [ticks] at hk
      by_cases h : checkpointDue c s
      · obtain ⟨a, b⟩ := hd h
        have h1 := (due_iff c s hc).1 h
        by_cases hf : s.is_connected = true
        · have hb := (untilCheckpoint_bounds c t hct).2
          have : ticksToUnknown c t ≤ ticks es := by
            simp only [ticksToUnknown, a, hf, if_true] at hk ⊢
            simp only [Bool.false_eq_true, if_false]
            omega
          obtain ⟨u, hu, hfin⟩ := ih t hqt hct hs2 hn2 this
          exact ⟨u, by simp only [run, ht, hu], hfin⟩
        · rw [if_neg hf] at b
          obtain ⟨u, hu, hfin⟩ := run_keeps_unknown c es t hqt hs2 hn2 a b
          exact ⟨u, by simp only [run, ht, hu], hfin⟩
      · obtain ⟨a, _⟩ := hnd h
        have h1 := untilCheckpoint_succ c s t hc h hpc
        have hb := (untilCheckpoint_bounds c s hc).1
        have : ticksToUnknown c t ≤ ticks es := by
          unfold ticksToUnknown at hk ⊢
          rw [a, h1]
          omega
        obtain ⟨u, hu, hfin⟩ := ih t hqt hct hs2 hn2 this
        exact ⟨u, by simp only [run, ht, hu], hfin⟩
    | datagram ds =>
      obtain ⟨t, ht, hqt, hpc, h⟩ := datagram_facts c ds s hq (hs _ (by simp))
      obtain ⟨a, _⟩ := h (hn _ (by simp))
      have : ticksToUnknown c t ≤ ticks es := by
        simp only [ticksToUnknown, a, untilCheckpoint_congr c s t hpc, ticks] at hk ⊢
        exact hk
      obtain ⟨u, hu, hfin⟩ := ih t hqt (hpc ▸ hc) hs2 hn2 this
      exact ⟨u, by simp only [run, ht, hu], hfin⟩
    | write f =>
      obtain ⟨t, ht, hqt, hpc, a, _⟩ := write_facts c f s hq (hs _ (by simp))
      have : ticksToUnknown c t ≤ ticks es := by
        simp only [ticksToUnknown, a, untilCheckpoint_congr c s t hpc, ticks] at hk ⊢
        exact hk
      obtain ⟨u, hu, hfin⟩ := ih t hqt (hpc ▸ hc) hs2 hn2 this
      exact ⟨u, by simp only [run, ht, hu], hfin⟩

/-- A run with fewer ticks than the distance to the next checkpoint passes no
checkpoint: the distance shrinks by the number of ticks. -/
theorem run_before_checkpoint (c : Consts) (es : List Event) :
    ∀ s : WiznetCanBackend, QueueFits s → s.ping_cnt < 2 ^ c.ping_cnt_bits →
      (∀ e ∈ es, e.safe c) → ticks es < untilCheckpoint c s →
      ∃ t, run c es s = .ok t ∧ t.ping_cnt < 2 ^ c.ping_cnt_bits ∧
        untilCheckpoint c t = untilCheckpoint c s - ticks es := by
  induction es with
  | nil => intro s _ hc _ _; exact ⟨s, rfl, hc, rfl⟩
  | cons e es ih =>
    intro s hq hc hs hk
    have hs2 : ∀ x ∈ es, x.safe c := fun x hx => hs x (List.mem_cons_of_mem _ hx)
    cases e with
    | tick =>
      obtain ⟨t, ht, hqt, hpc, _, _⟩ := tick_facts c s hq
      have hct : t.ping_cnt < 2 ^ c.ping_cnt_bits := hpc ▸ succ_mod_lt c _
      simp only [ticks] at hk ⊢
      have hnd : ¬ checkpointDue c s := by
        rw [due_iff c s hc]; omega
      have h1 := untilCheckpoint_succ c s t hc hnd hpc
      obtain ⟨u, hu, hcu, hfin⟩ := ih t hqt hct hs2 (by omega)
      exact ⟨u, by simp only [run, ht, hu], hcu, by omega⟩
    | datagram ds =>
      obtain ⟨t, ht, hqt, hpc, _⟩ := datagram_facts c ds s hq (hs _ (by simp))
      have h1 := untilCheckpoint_congr c s t hpc
      simp only [ticks] at hk ⊢
      obtain ⟨u, hu, hcu, hfin⟩ := ih t hqt (hpc ▸ hc) hs2 (by omega)
      exact ⟨u, by simp only [run, ht, hu], hcu, by omega⟩
    | write f =>
      obtain ⟨t, ht, hqt, hpc, _⟩ := write_facts c f s hq (hs _ (by simp))
      have h1 := untilCheckpoint_congr c s t hpc
      simp only [ticks] at hk ⊢
      obtain ⟨u, hu, hcu, hfin⟩ := ih t hqt (hpc ▸ hc) hs2 (by omega)
      exact ⟨u, by simp only [run, ht, hu], hcu, by omega⟩

/-- What a successful `open` leaves behind. -/
theorem open_facts (c : Consts) (s : WiznetCanBackend) :
    (s.open c true).1 = true ∧
    (s.open c true).2.can_bus_status = CanBusStatus.Unknown ∧
    (s.open c true).2.is_connected = false ∧
    (s.open c true).2.ping_cnt = 0 ∧
    (s.open c true).2.outgoingFrames = s.outgoingFrames ∧
    (s.open c true).2.sendCalls = s.sendCalls ++ [⟨c.PKT_TYPE_PING, TxData.null, 0⟩] :=
  ⟨rfl, rfl, rfl, rfl, rfl, rfl⟩

/-- From counter 0 the next checkpoint is 10 ticks away when the counter has at
least 4 bits. -/
theorem untilCheckpoint_zero (c : Consts) (s : WiznetCanBackend) (h : s.ping_cnt = 0)
    (hbits : 4 ≤ c.ping_cnt_bits) : untilCheckpoint c s = 10 := by
  have : 2 ^ 4 ≤ 2 ^ c.ping_cnt_bits := Nat.pow_le_pow_right (by decide) hbits
  unfold untilCheckpoint
  rw [h]
  omega

/-- No CAN call is a ping when the two packet types differ. -/
theorem filter_canCall_ping (c : Consts) (hne : c.PKT_TYPE_PING ≠ c.PKT_TYPE_CAN)
    (l : List QCanBusFrame) :
    (l.map (canCall c)).filter (fun p => decide (p.type = c.PKT_TYPE_PING)) = [] := by
  rw [List.filter_eq_nil_iff]
  intro p hp
  obtain ⟨f, _, rfl⟩ := List.mem_map.1 hp
  simpa [canCall] using hne.symm

/-- Every CAN call has type `PKT_TYPE_CAN`. -/
theorem filter_canCall_can (c : Consts) (l : List QCanBusFrame) :
    (l.map (canCall c)).filter (fun p => decide (p.type = c.PKT_TYPE_CAN)) = l.map (canCall c) := by
  rw [List.filter_eq_self]
  intro p hp
  obtain ⟨f, _, rfl⟩ := List.mem_map.1 hp
  simp [canCall]

/-- The calls, notifications and queue that a tick produces. -/
theorem tick_log (c : Consts) (s : WiznetCanBackend) :
    callsSince s (WiznetCanBackend.heartbeat c (flushed c s)) =
        (s.outgoingFrames.takeWhile QCanBusFrame.isValid).map (canCall c) ++
          (if checkpointDue c s then [⟨c.PKT_TYPE_PING, TxData.null, 0⟩] else []) ∧
    (WiznetCanBackend.heartbeat c (flushed c s)).framesWritten =
        s.framesWritten ++
          (if (s.outgoingFrames.takeWhile QCanBusFrame.isValid).length ≠ 0
            then [(s.outgoingFrames.takeWhile QCanBusFrame.isValid).length] else []) ∧
    (WiznetCanBackend.heartbeat c (flushed c s)).outgoingFrames =
        (s.outgoingFrames.dropWhile QCanBusFrame.isValid).drop 1 := by
  by_cases hd : checkpointDue c s
  · have hd2 : checkpointDue c (flushed c s) := hd
    rw [heartbeat_due c _ hd2]
    simp [callsSince, flushed, hd]
  · have hd2 : ¬ checkpointDue c (flushed c s) := hd
    rw [heartbeat_not_due c _ hd2]
    simp [callsSince, flushed, hd]

/-- A run of safe events from a state whose queue fits completes; the queue
still fits afterwards and the tick counter stays in range. In particular every
state reached from `open` by safe events has a queue that fits and a counter in
range. -/
theorem run_safe (c : Consts) (es : List Event) :
    ∀ s : WiznetCanBackend, QueueFits s → (∀ e ∈ es, e.safe c) →
      ∃ t, run c es s = .ok t ∧ QueueFits t ∧
        (s.ping_cnt < 2 ^ c.ping_cnt_bits → t.ping_cnt < 2 ^ c.ping_cnt_bits) := by
  induction es with
  | nil => intro s hq _; exact ⟨s, rfl, hq, id⟩
  | cons e es ih =>
    intro s hq hs
    have hs2 : ∀ x ∈ es, x.safe c := fun x hx => hs x (List.mem_cons_of_mem _ hx)
    have key : ∃ t, step c e s = .ok t ∧ QueueFits t ∧
        (s.ping_cnt < 2 ^ c.ping_cnt_bits → t.ping_cnt < 2 ^ c.ping_cnt_bits) := by
      cases e with
      | tick =>
        obtain ⟨t, ht, hqt, hpc, _⟩ := tick_facts c s hq
        exact ⟨t, ht, hqt, fun _ => hpc ▸ succ_mod_lt c _⟩
      | datagram ds =>
        obtain ⟨t, ht, hqt, hpc, _⟩ := datagram_facts c ds s hq (hs _ (by simp))
        exact ⟨t, ht, hqt, fun h => hpc ▸ h⟩
      | write f =>
        obtain ⟨t, ht, hqt, hpc, _⟩ := write_facts c f s hq (hs _ (by simp))
        exact ⟨t, ht, hqt, fun h => hpc ▸ h⟩
    obtain ⟨t, ht, hqt, hct⟩ := key
    obtain ⟨u, hu, hqu, hcu⟩ := ih t hqt hs2
    exact ⟨u, by simp only [run, ht, hu], hqu, fun h => hcu (hct h)⟩

/-- The classification of a ping reply is never Unknown. -/
theorem pingStatus_ne_unknown (c : Consts) (b : Byte) :
    WiznetCanBackend.pingStatus c b ≠ CanBusStatus.Unknown := by
  unfold WiznetCanBackend.pingStatus
  split_ifs <;> decide

/-- The CAN calls of a queue that fits carry `convert` of the frames, in
order. -/
theorem forall₂_canCall (c : Consts) (l : List QCanBusFrame) (h : ∀ f ∈ l, f.load.length ≤ 8) :
    List.Forall₂
      (fun f p => ∃ m, f.convert c = .ok m ∧
        p = (⟨c.PKT_TYPE_CAN, TxData.msg m, c.sizeof_can_msg_t⟩ : SendCall))
      l (l.map (canCall c)) := by
  induction l with
  | nil => exact List.Forall₂.nil
  | cons f l ih =>
    refine List.Forall₂.cons ⟨wireOf c f, QCanBusFrame.convert_fits c f (h f (by simp)), rfl⟩ ?_
    exact ih (fun x hx => h x (List.mem_cons_of_mem _ hx))

/-- The only way encoding fails is the assertion of line 75. -/
theorem QCanBusFrame.convert_error (c : Consts) (f : QCanBusFrame) (e : Fault)
    (h : f.convert c = .error e) : e = Fault.assertPayloadSize := by
  by_cases hlen : f.load.length ≤ 8
  · rw [QCanBusFrame.convert_fits c f hlen] at h
    cases h
  · have : f.convert c = .error Fault.assertPayloadSize := by
      simp only [QCanBusFrame.convert, QCanBusFrame.payload, sizeof_data]
      rw [if_neg hlen]
    exact (Except.error.inj (h.symm.trans this))

/-- The loop never runs out of fuel when given the length of the queue plus
two. -/
theorem sendLoop_fuel (c : Consts) (q : List QCanBusFrame) :
    ∀ (f : QCanBusFrame) (fuel n : Nat) (s : WiznetCanBackend),
      s.outgoingFrames = q → q.length + 2 ≤ fuel →
      WiznetCanBackend.sendLoop c fuel f n 0 s ≠ .error Fault.outOfFuel := by
  induction q with
  | nil =>
    rintro f fuel n ⟨qq, rb, sc, fw, ic, st, pc, ot⟩ hq hfuel
    simp only at hq
    subst hq
    obtain ⟨k, rfl⟩ : ∃ k, fuel = k + 2 := ⟨fuel - 2, by simp at hfuel; omega⟩
    cases hv : f.isValid
    · simp [WiznetCanBackend.sendLoop, hv]
    · cases hc : f.convert c with
      | error e =>
        have he : e = Fault.assertPayloadSize := QCanBusFrame.convert_error c f e hc
        simp [WiznetCanBackend.sendLoop, hv, hc, budget_open, he]
      | ok m =>
        simp [WiznetCanBackend.sendLoop, hv, hc, budget_open, dequeueOutgoingFrame, cmdCanSendType,
          isValid_create_invalid]
  | cons g q ih =>
    rintro f fuel n ⟨qq, rb, sc, fw, ic, st, pc, ot⟩ hq hfuel
    simp only at hq
    subst hq
    obtain ⟨k, rfl⟩ : ∃ k, fuel = k + 1 := ⟨fuel - 1, by simp at hfuel; omega⟩
    cases hv : f.isValid
    · simp [WiznetCanBackend.sendLoop, hv]
    · cases hc : f.convert c with
      | error e =>
        have he : e = Fault.assertPayloadSize := QCanBusFrame.convert_error c f e hc
        simp [WiznetCanBackend.sendLoop, hv, hc, budget_open, he]
      | ok m =>
        simp only [WiznetCanBackend.sendLoop, hv, hc, budget_open, dequeueOutgoingFrame,
          cmdCanSendType, Bool.and_self, if_true]
        exact ih g k (n + 1) _ rfl (by simp at hfuel; omega)

/-- A tick never fails for lack of fuel: the loop of lines 220-229 terminates
within the bound the model gives it. -/
theorem timerEvent_fuel (c : Consts) (s : WiznetCanBackend) :
    s.timerEvent c ≠ .error Fault.outOfFuel := by
  obtain ⟨q, rb, sc, fw, ic, st, pc, ot⟩ := s
  cases q with
  | nil =>
    simp [WiznetCanBackend.timerEvent, dequeueOutgoingFrame, WiznetCanBackend.sendLoop,
      isValid_create_invalid]
  | cons f q =>
    have h := sendLoop_fuel c q f (q.length + 2) 0 ⟨q, rb, sc, fw, ic, st, pc, ot⟩ rfl (le_refl _)
    simp only [WiznetCanBackend.timerEvent, dequeueOutgoingFrame, List.length_cons]
    cases hr : WiznetCanBackend.sendLoop c (q.length + 1 + 1) f 0 0
        ⟨q, rb, sc, fw, ic, st, pc, ot⟩ with
    | error e =>
      intro hcontra
      apply h
      rw [hr]
      simpa using hcontra
    | ok r => simp

/-! ## The claims -/

/-- C1. Codec round trip: for a Data or Remote frame with at most 8 payload
bytes whose identifier is in range for its format (11 bits when standard, 29
bits when extended), encoding and then decoding succeeds and returns a frame
with the same identifier, format, frame type and payload. The two tests of
lines 19 and 21 need the wire tags to be told apart: the data and remote tags
differ from the error tag, the remote tag is nonzero and shares no bit with
the data tag; line 27 needs `CAN_STD` and `CAN_EXT` to differ. -/
theorem C1_codec_round_trip (c : Consts) (f : QCanBusFrame)
    (hDE : c.CAN_FRAME_TYPE_DATA ≠ c.CAN_FRAME_TYPE_ERROR)
    (hDR : c.CAN_FRAME_TYPE_DATA &&& c.CAN_FRAME_TYPE_REMOTE = 0)
    (hRE : c.CAN_FRAME_TYPE_REMOTE ≠ c.CAN_FRAME_TYPE_ERROR)
    (hR : c.CAN_FRAME_TYPE_REMOTE ≠ 0)
    (hSE : c.CAN_STD ≠ c.CAN_EXT)
    (hkind : f.frameType = FrameType.DataFrame ∨ f.frameType = FrameType.RemoteRequestFrame)
    (hlen : f.payload.length ≤ 8)
    (hid : f.frameId ≤ if f.hasExtendedFrameFormat = true then 0x1FFFFFFF else 0x7FF) :
    ∃ m g, f.convert c = .ok m ∧ m.convert c = .ok g ∧
      g.frameId = f.frameId ∧
      g.hasExtendedFrameFormat = f.hasExtendedFrameFormat ∧
      g.frameType = f.frameType ∧
      g.payload = f.payload := by
  have hne : f.format ≠ FrameType.ErrorFrame := by
    rcases hkind with hk | hk <;> simp only [QCanBusFrame.frameType] at hk <;> rw [hk] <;> decide
  have hfid : f.frameId = f.canId &&& 0x1FFFFFFF := by
    simp only [QCanBusFrame.frameId, if_neg hne]
  have hlt : f.frameId < 0x20000000 := hfid ▸ and_low29_lt f.canId
  have hm := QCanBusFrame.convert_fits c f hlen
  obtain ⟨g, hg, hfmt, hx, hcan, hload⟩ :=
    can_msg_t.convert_reads c (wireOf c f) f.load (readBytes_memcpy (List.replicate 8 none) f.load) hlt
  simp only [wireOf] at hfmt hx hcan
  refine ⟨wireOf c f, g, hm, hg, ?_, ?_, ?_, hload⟩
  · have hgne : g.format ≠ FrameType.ErrorFrame := by
      rw [hfmt]
      rcases hkind with hk | hk <;> simp only [QCanBusFrame.frameType] at hk <;>
        simp [hk, hDE, hDR, hRE, hR]
    simp only [QCanBusFrame.frameId, if_neg hgne, if_neg hne, hcan]
    rw [Nat.and_assoc, Nat.and_self]
  · simp only [QCanBusFrame.hasExtendedFrameFormat] at hid ⊢
    rw [hx]
    by_cases hb : f.isExtendedFrame = true
    · simp [hb]
    · have hid2 : f.frameId ≤ 0x7FF := by simpa [hb] using hid
      have := and_high_bits_eq_zero _ hid2
      simp [this, hSE, hb]
  · simp only [QCanBusFrame.frameType] at hkind ⊢
    rw [hfmt]
    rcases hkind with hk | hk <;> simp [hk, hDE, hDR, hRE, hR]

/-- C1 applied to an extended remote request frame with identifier `0x123`. -/
theorem C1_witness :
    sampleRemoteFrame.frameType = FrameType.RemoteRequestFrame ∧
    sampleRemoteFrame.payload.length ≤ 8 ∧
    ∃ m g, sampleRemoteFrame.convert sampleConsts = .ok m ∧ m.convert sampleConsts = .ok g ∧
      g.frameId = 0x123 ∧ g.hasExtendedFrameFormat = true ∧
      g.frameType = FrameType.RemoteRequestFrame ∧ g.payload = [] := by
  refine ⟨rfl, by decide, ?_⟩
  obtain ⟨m, g, hm, hg, h1, h2, h3, h4⟩ := C1_codec_round_trip sampleConsts sampleRemoteFrame
    (by decide) (by decide) (by decide) (by decide) (by decide) (Or.inr rfl) (by decide)
    (by decide)
  exact ⟨m, g, hm, hg, h1, h2, h3, h4⟩

/-- C2. Ping reply classification: handling a ping reply with status byte `b`
sets the link status to Good when `b` is zero, else to BusOff when the bus-off
bit is set, else to Warning when the warning bit is set, else to Error; the
result is never Unknown. -/
theorem C2_ping_classification (c : Consts) (p : RxPacket) (t1 t2 : Int) (s : WiznetCanBackend)
    (hp : p.type = c.PKT_TYPE_PING) (hne : c.PKT_TYPE_PING ≠ c.PKT_TYPE_CAN) :
    ∃ t, WiznetCanBackend.handlePacket c [⟨p, t1, t2⟩] s = .ok t ∧
      t.canGetStatus =
        (if p.data0 = 0 then CanBusStatus.Good
         else if p.data0.val &&& c.CAN_ERR_BUS_OFF ≠ 0 then CanBusStatus.BusOff
         else if p.data0.val &&& c.CAN_ERR_WARNING ≠ 0 then CanBusStatus.Warning
         else CanBusStatus.Error) ∧
      t.canGetStatus ≠ CanBusStatus.Unknown := by
  simp only [WiznetCanBackend.handlePacket, handleRxPacket_ping c p t1 t2 s hp hne]
  refine ⟨_, rfl, ?_, pingStatus_ne_unknown c p.data0⟩
  simp only [WiznetCanBackend.canGetStatus, WiznetCanBackend.pingStatus, CAN_ERR_NONE]
  have : (p.data0.val = 0) ↔ (p.data0 = 0) := by
    constructor
    · intro h; exact Fin.ext h
    · intro h; rw [h]; rfl
  simp only [this]

/-- C2 applied to a ping reply with status byte 6 (bus-off and warning bits
both set): the status is BusOff. -/
theorem C2_witness :
    sampleConsts.PKT_TYPE_PING ≠ sampleConsts.PKT_TYPE_CAN ∧
    ∃ t, WiznetCanBackend.handlePacket sampleConsts [samplePingReply 6] sampleOpened = .ok t ∧
      t.canGetStatus = CanBusStatus.BusOff := by
  refine ⟨by decide, ?_⟩
  obtain ⟨t, ht, hst, _⟩ := C2_ping_classification sampleConsts (samplePingReply 6).packet 0 0
    sampleOpened rfl (by decide)
  exact ⟨t, ht, hst.trans (by decide)⟩

/-- C3, as stated, fails: after `open` a ping reply with status 0 makes the
link Good; the 10 ticks that follow, with no further reply, end at the first
checkpoint, which only clears the reply-seen flag, so the status is still Good
after the 10th tick. -/
theorem C3_counterexample :
    (run sampleConsts [Event.datagram [samplePingReply 0]] sampleOpened).map
        WiznetCanBackend.canGetStatus = .ok CanBusStatus.Good ∧
    (run sampleConsts (Event.datagram [samplePingReply 0] :: List.replicate 10 Event.tick)
        sampleOpened).map WiznetCanBackend.canGetStatus = .ok CanBusStatus.Good := by
  decide

/-- C3, amended. From any state whose tick counter is in range, a run of safe
events that handles no ping reply ends with status Unknown as soon as it holds
10 ticks when the reply-seen flag was clear at its start, and as soon as it
holds 20 ticks in every case. -/
theorem C3_missed_heartbeat (c : Consts) (s : WiznetCanBackend) (es : List Event)
    (hq : QueueFits s) (hc : s.ping_cnt < 2 ^ c.ping_cnt_bits)
    (hs : ∀ e ∈ es, e.safe c) (hn : ∀ e ∈ es, e.noPing c) :
    ∃ t, run c es s = .ok t ∧
      (s.is_connected = false → 10 ≤ ticks es → t.canGetStatus = CanBusStatus.Unknown) ∧
      (20 ≤ ticks es → t.canGetStatus = CanBusStatus.Unknown) := by
  obtain ⟨t, ht, _, _⟩ := run_safe c es s hq hs
  have hb := (untilCheckpoint_bounds c s hc).2
  refine ⟨t, ht, ?_, ?_⟩
  · intro hf hk
    obtain ⟨u, hu, hfin⟩ := run_reaches_unknown c es s hq hc hs hn
      (by simp only [ticksToUnknown, hf, Bool.false_eq_true, if_false]; omega)
    rw [Except.ok.inj (ht.symm.trans hu)]
    exact hfin
  · intro hk
    obtain ⟨u, hu, hfin⟩ := run_reaches_unknown c es s hq hc hs hn
      (by unfold ticksToUnknown; split_ifs <;> omega)
    rw [Except.ok.inj (ht.symm.trans hu)]
    exact hfin

/-- C3, amended, applied to a state with status Good and the reply-seen flag
set: after one `writeFrame` and 20 ticks the status is Unknown. -/
theorem C3_witness :
    sampleBeforeCheckpoint.canGetStatus = CanBusStatus.Good ∧
    QueueFits sampleBeforeCheckpoint ∧
    ∃ t, run sampleConsts (Event.write sampleFrame :: List.replicate 20 Event.tick)
        sampleBeforeCheckpoint = .ok t ∧ t.canGetStatus = CanBusStatus.Unknown := by
  refine ⟨rfl, by decide, ?_⟩
  obtain ⟨t, ht, _, h20⟩ := C3_missed_heartbeat sampleConsts sampleBeforeCheckpoint
    (Event.write sampleFrame :: List.replicate 20 Event.tick)
    (by decide) (by decide) (by decide) (by decide)
  exact ⟨t, ht, h20 (by decide)⟩

/-- C4 fails on the code: `totalBytes` is never advanced, so the whole queue
goes out in one tick. With 1922 frames queued the tick hands 1922 structures of
16 bytes to `cmdCanSendType`, more than the budget of 1920 bytes plus one
frame. (1922 frames exceed that bound for every positive structure size.) -/
theorem C4_budget_exceeded :
    MAX_BYTES_PER_TIMEOUT = 1920 ∧
    ∃ t, sampleBacklog.timerEvent sampleConsts = .ok t ∧
      ((callsSince sampleBacklog t).map SendCall.length).sum = 1922 * 16 ∧
      ¬ ((callsSince sampleBacklog t).map SendCall.length).sum
          ≤ MAX_BYTES_PER_TIMEOUT + sampleConsts.sizeof_can_msg_t := by
  have hq : QueueFits sampleBacklog := by
    intro g hg
    rw [List.eq_of_mem_replicate hg]
    decide
  have hnd : ¬ checkpointDue sampleConsts sampleBacklog := by decide
  have hsum : ((callsSince sampleBacklog
      (WiznetCanBackend.heartbeat sampleConsts (flushed sampleConsts sampleBacklog))).map
        SendCall.length).sum = 1922 * 16 := by
    rw [(tick_log sampleConsts sampleBacklog).1, if_neg hnd]
    have hv : sampleFrame.isValid = true := by decide
    have hqueue : sampleBacklog.outgoingFrames = List.replicate 1922 sampleFrame := rfl
    rw [hqueue, List.takeWhile_replicate, if_pos hv, List.append_nil, List.map_replicate,
      List.map_replicate, List.sum_replicate]
    rfl
  refine ⟨by decide, _, timerEvent_eq sampleConsts sampleBacklog hq, hsum, ?_⟩
  rw [hsum]
  decide

/-- C5 fails on the code: `handlePacket` does not call `convert` but builds the
frame from `id` and the payload only. For the wire structure of an extended
remote request with identifier `0x123` it delivers a standard data frame,
where `convert` yields an extended remote request frame. -/
theorem C5_dispatch_skips_convert :
    ∃ t f g,
      WiznetCanBackend.handlePacket sampleConsts [sampleCanPacket] sampleOpened = .ok t ∧
      t.receivedBatches = [[f]] ∧
      sampleRemoteMsg.convert sampleConsts = .ok g ∧
      f.frameType = FrameType.DataFrame ∧ g.frameType = FrameType.RemoteRequestFrame ∧
      f.hasExtendedFrameFormat = false ∧ g.hasExtendedFrameFormat = true ∧
      f.frameId = g.frameId ∧ f.payload = g.payload :=
  ⟨_, _, _, rfl, rfl, rfl, rfl, rfl, rfl, rfl, rfl, rfl⟩

/-- C6. Heartbeat checkpoint: a tick at which the advanced counter is a multiple
of ten sets the status to Unknown when the reply-seen flag is clear and keeps
it otherwise, leaves the flag clear, and sends exactly one ping with `NULL`
data and length 0. After `open`, a run with fewer than ten ticks is followed
by a checkpoint tick exactly when it holds nine ticks. -/
theorem C6_heartbeat_checkpoint (c : Consts) (s s0 : WiznetCanBackend) (es : List Event)
    (hne : c.PKT_TYPE_PING ≠ c.PKT_TYPE_CAN) (hq : QueueFits s) (hdue : checkpointDue c s)
    (hbits : 4 ≤ c.ping_cnt_bits) (hq0 : QueueFits s0) (hs : ∀ e ∈ es, e.safe c)
    (hk : ticks es < 10) :
    (∃ t, s.timerEvent c = .ok t ∧
      t.canGetStatus =
        (if s.is_connected = true then s.canGetStatus else CanBusStatus.Unknown) ∧
      t.is_connected = false ∧
      (callsSince s t).filter (fun p => decide (p.type = c.PKT_TYPE_PING)) =
        [⟨c.PKT_TYPE_PING, TxData.null, 0⟩]) ∧
    (∃ u, run c es (s0.open c true).2 = .ok u ∧ (checkpointDue c u ↔ ticks es = 9)) := by
  constructor
  · refine ⟨_, timerEvent_eq c s hq, ?_, ?_, ?_⟩
    · have hd2 : checkpointDue c (flushed c s) := hdue
      rw [heartbeat_due c _ hd2]; rfl
    · have hd2 : checkpointDue c (flushed c s) := hdue
      rw [heartbeat_due c _ hd2]
    · rw [(tick_log c s).1, if_pos hdue, List.filter_append, filter_canCall_ping c hne]
      simp
  · obtain ⟨_, _, _, hpc, hqo, _⟩ := open_facts c s0
    have hten := untilCheckpoint_zero c (s0.open c true).2 hpc hbits
    have hq1 : QueueFits (s0.open c true).2 := by
      intro g hg; rw [hqo] at hg; exact hq0 g hg
    have hc1 : (s0.open c true).2.ping_cnt < 2 ^ c.ping_cnt_bits := by
      rw [hpc]; exact Nat.pos_pow_of_pos _ (by decide)
    obtain ⟨u, hu, hcu, hfin⟩ := run_before_checkpoint c es _ hq1 hc1 hs (by omega)
    refine ⟨u, hu, ?_⟩
    rw [due_iff c u hcu]
    omega

/-- C6 applied to a state whose counter is 9 and whose flag is set, and to a run
of one `writeFrame` and nine ticks after `open`. -/
theorem C6_witness :
    checkpointDue sampleConsts sampleBeforeCheckpoint ∧
    (∃ t, sampleBeforeCheckpoint.timerEvent sampleConsts = .ok t ∧
      t.canGetStatus = CanBusStatus.Good ∧ t.is_connected = false) ∧
    (∃ u, run sampleConsts (Event.write sampleFrame :: List.replicate 9 Event.tick)
        ((WiznetCanBackend.create true 7).open sampleConsts true).2 = .ok u ∧
      checkpointDue sampleConsts u) := by
  obtain ⟨⟨t, ht, hst, hf, _⟩, ⟨u, hu, hiff⟩⟩ :=
    C6_heartbeat_checkpoint sampleConsts sampleBeforeCheckpoint (WiznetCanBackend.create true 7)
      (Event.write sampleFrame :: List.replicate 9 Event.tick)
      (by decide) (by decide) (by decide) (by decide) (by decide) (by decide) (by decide)
  exact ⟨by decide, ⟨t, ht, hst, hf⟩, ⟨u, hu, hiff.2 (by decide)⟩⟩

/-- C7. Frames-flushed notification: a tick emits `framesWritten` at most once,
exactly when it sent at least one CAN packet, with the number of CAN packets
it sent as argument; a tick on an empty queue emits nothing. -/
theorem C7_frames_written (c : Consts) (s : WiznetCanBackend)
    (hne : c.PKT_TYPE_PING ≠ c.PKT_TYPE_CAN) (hq : QueueFits s) :
    ∃ t, s.timerEvent c = .ok t ∧
      t.framesWritten = s.framesWritten ++
        (if ((callsSince s t).filter (fun p => decide (p.type = c.PKT_TYPE_CAN))).length = 0
          then []
          else [((callsSince s t).filter (fun p => decide (p.type = c.PKT_TYPE_CAN))).length]) ∧
      (s.outgoingFrames = [] → t.framesWritten = s.framesWritten) := by
  obtain ⟨hcalls, hfw, _⟩ := tick_log c s
  have hcount : ((callsSince s (WiznetCanBackend.heartbeat c (flushed c s))).filter
      (fun p => decide (p.type = c.PKT_TYPE_CAN))).length =
      (s.outgoingFrames.takeWhile QCanBusFrame.isValid).length := by
    rw [hcalls, List.filter_append, filter_canCall_can]
    split_ifs <;> simp [hne]
  refine ⟨_, timerEvent_eq c s hq, ?_, ?_⟩
  · rw [hcount, hfw]
    split_ifs <;> simp_all
  · intro he
    rw [hfw, he]
    simp

/-- C7 applied to a state with two queued frames: one notification, with
argument 2. -/
theorem C7_witness :
    QueueFits sampleBeforeCheckpoint ∧
    ∃ t, sampleBeforeCheckpoint.timerEvent sampleConsts = .ok t ∧
      t.framesWritten = [2] := by
  refine ⟨by decide, ?_⟩
  obtain ⟨t, ht, hfw, _⟩ := C7_frames_written sampleConsts sampleBeforeCheckpoint
    (by decide) (by decide)
  refine ⟨t, ht, ?_⟩
  have ht2 : sampleBeforeCheckpoint.timerEvent sampleConsts =
      .ok (WiznetCanBackend.heartbeat sampleConsts (flushed sampleConsts sampleBeforeCheckpoint)) :=
    timerEvent_eq _ _ (by decide)
  rw [Except.ok.inj (ht.symm.trans ht2)]
  decide

/-- C8. Encode mapping rules: for a frame with at most 8 payload bytes `convert`
succeeds and yields the error tag for an Error frame, the remote tag for a
Remote frame and the data tag for every other frame type; `CAN_EXT` for the
extended format and `CAN_STD` otherwise; the identifier `frameId()`; the
payload size as `length`; and the payload in the first `length` cells of
`data`. -/
theorem C8_encode_mapping (c : Consts) (f : QCanBusFrame) (hlen : f.payload.length ≤ 8) :
    ∃ m, f.convert c = .ok m ∧
      m.frame_type =
        (if f.frameType = FrameType.ErrorFrame then c.CAN_FRAME_TYPE_ERROR
         else if f.frameType = FrameType.RemoteRequestFrame then c.CAN_FRAME_TYPE_REMOTE
         else c.CAN_FRAME_TYPE_DATA) ∧
      m.id_type = (if f.hasExtendedFrameFormat = true then c.CAN_EXT else c.CAN_STD) ∧
      m.id = f.frameId ∧
      m.length = f.payload.length ∧
      m.data.take m.length = f.payload.map some :=
  ⟨_, QCanBusFrame.convert_fits c f hlen, rfl, rfl, rfl, rfl, by simp [wireOf, memcpy, QCanBusFrame.payload]⟩

/-- C8 applied to a standard data frame with identifier `0x123` and payload
1, 2, 3. -/
theorem C8_witness :
    sampleFrame.payload.length ≤ 8 ∧
    ∃ m, sampleFrame.convert sampleConsts = .ok m ∧
      m.frame_type = sampleConsts.CAN_FRAME_TYPE_DATA ∧ m.id_type = sampleConsts.CAN_STD ∧
      m.id = 0x123 ∧ m.length = 3 ∧ m.data.take m.length = [some 1, some 2, some 3] := by
  refine ⟨by decide, ?_⟩
  obtain ⟨m, hm, h1, h2, h3, h4, h5⟩ := C8_encode_mapping sampleConsts sampleFrame (by decide)
  exact ⟨m, hm, h1, h2, h3, h4, h5⟩

/-- C9. A tick drains the queue first in, first out, one frame per packet: when
every queued frame is valid and has at most 8 payload bytes, the tick succeeds,
leaves the queue empty, and the CAN packets it sends are, in queue order, one
per frame, each carrying `convert` of its frame with length
`sizeof(can_msg_t)`; the only other call of the tick is the ping of a
checkpoint. -/
theorem C9_tick_drains_queue (c : Consts) (s : WiznetCanBackend)
    (hne : c.PKT_TYPE_PING ≠ c.PKT_TYPE_CAN)
    (hv : ∀ f ∈ s.outgoingFrames, f.isValid = true ∧ f.payload.length ≤ 8) :
    ∃ t pkts, s.timerEvent c = .ok t ∧
      t.outgoingFrames = [] ∧
      List.Forall₂
        (fun f p => ∃ m, f.convert c = .ok m ∧
          p = (⟨c.PKT_TYPE_CAN, TxData.msg m, c.sizeof_can_msg_t⟩ : SendCall))
        s.outgoingFrames pkts ∧
      callsSince s t =
        pkts ++ (if checkpointDue c s then [⟨c.PKT_TYPE_PING, TxData.null, 0⟩] else []) ∧
      (callsSince s t).filter (fun p => decide (p.type = c.PKT_TYPE_CAN)) = pkts := by
  have hq : QueueFits s := fun g hg => (hv g hg).2
  have htake : s.outgoingFrames.takeWhile QCanBusFrame.isValid = s.outgoingFrames :=
    List.takeWhile_eq_self_iff.2 (fun g hg => (hv g hg).1)
  have hdrop : s.outgoingFrames.dropWhile QCanBusFrame.isValid = [] :=
    List.dropWhile_eq_nil_iff.2 (fun g hg => (hv g hg).1)
  obtain ⟨hcalls, _, hout⟩ := tick_log c s
  rw [htake] at hcalls
  rw [hdrop] at hout
  refine ⟨_, s.outgoingFrames.map (canCall c), timerEvent_eq c s hq, hout,
    forall₂_canCall c _ hq, hcalls, ?_⟩
  rw [hcalls, List.filter_append, filter_canCall_can]
  split_ifs <;> simp [hne]

/-- C9 applied to a state with two queued frames at a checkpoint: the queue is
emptied and the tick makes three calls (two CAN packets, one ping). -/
theorem C9_witness :
    (∀ f ∈ sampleBeforeCheckpoint.outgoingFrames, f.isValid = true ∧ f.payload.length ≤ 8) ∧
    ∃ t, sampleBeforeCheckpoint.timerEvent sampleConsts = .ok t ∧ t.outgoingFrames = [] ∧
      (callsSince sampleBeforeCheckpoint t).length = 3 := by
  refine ⟨by decide, ?_⟩
  obtain ⟨t, pkts, ht, hout, hrel, hcalls, _⟩ := C9_tick_drains_queue sampleConsts
    sampleBeforeCheckpoint (by decide) (by decide)
  refine ⟨t, ht, hout, ?_⟩
  have hlen := hrel.length_eq
  rw [hcalls, if_pos (by decide), List.length_append, ← hlen]
  rfl

/-- C10. The link status and the reply-seen flag change only on ping replies
and heartbeat checkpoints. In every state, whatever the tick counter: a
datagram that decodes to CAN packets leaves both unchanged, a `writeFrame`
call leaves both unchanged, and the status is Unknown right after a successful
`open`. A tick leaves both unchanged when it is no checkpoint (and the queued
frames fit, so that it completes). -/
theorem C10_link_state_frame (c : Consts) (s : WiznetCanBackend)
    (ds : List WiznetCanBackend.Decoded) (f : QCanBusFrame)
    (hne : c.PKT_TYPE_PING ≠ c.PKT_TYPE_CAN)
    (hcan : ∀ d ∈ ds, d.packet.type = c.PKT_TYPE_CAN ∧ d.packet.can_msg.readable = true) :
    (∃ t, WiznetCanBackend.handlePacket c ds s = .ok t ∧
      t.canGetStatus = s.canGetStatus ∧ t.is_connected = s.is_connected) ∧
    ((s.writeFrame f).2.canGetStatus = s.canGetStatus ∧
      (s.writeFrame f).2.is_connected = s.is_connected) ∧
    (QueueFits s → ¬ checkpointDue c s →
      ∃ t, s.timerEvent c = .ok t ∧
        t.canGetStatus = s.canGetStatus ∧ t.is_connected = s.is_connected) ∧
    (s.open c true).2.canGetStatus = CanBusStatus.Unknown := by
  refine ⟨?_, ⟨rfl, rfl⟩, ?_, rfl⟩
  · obtain ⟨t, ht, h1, h2, _, _⟩ := handlePacket_noPing c ds s
      (fun d hd h => hne (h.symm.trans (hcan d hd).1)) (fun d hd _ => (hcan d hd).2)
    exact ⟨t, ht, h1, h2⟩
  · intro hq hnd
    obtain ⟨t, ht, _, _, _, h⟩ := tick_facts c s hq
    obtain ⟨a, b⟩ := h hnd
    exact ⟨t, ht, b, a⟩

/-- C10 applied twice. At a state whose next tick is a checkpoint (status Good,
flag set, counter 9): a CAN packet and a `writeFrame` keep Good and the flag,
and `open` gives Unknown. At a freshly opened backend, whose next tick is no
checkpoint: the tick keeps status Unknown and the flag clear. -/
theorem C10_witness :
    checkpointDue sampleConsts sampleBeforeCheckpoint ∧
    (∃ t, WiznetCanBackend.handlePacket sampleConsts [sampleCanPacket]
        sampleBeforeCheckpoint = .ok t ∧
      t.canGetStatus = CanBusStatus.Good ∧ t.is_connected = true) ∧
    ((sampleBeforeCheckpoint.writeFrame sampleFrame).2.canGetStatus = CanBusStatus.Good ∧
      (sampleBeforeCheckpoint.writeFrame sampleFrame).2.is_connected = true) ∧
    (sampleBeforeCheckpoint.open sampleConsts true).2.canGetStatus = CanBusStatus.Unknown ∧
    QueueFits sampleOpened ∧ ¬ checkpointDue sampleConsts sampleOpened ∧
    (∃ t, sampleOpened.timerEvent sampleConsts = .ok t ∧
      t.canGetStatus = CanBusStatus.Unknown ∧ t.is_connected = false) := by
  obtain ⟨h1, h2, _, h4⟩ := C10_link_state_frame sampleConsts sampleBeforeCheckpoint
    [sampleCanPacket] sampleFrame (by decide) (by decide)
  obtain ⟨_, _, h3, _⟩ := C10_link_state_frame sampleConsts sampleOpened
    [sampleCanPacket] sampleFrame (by decide) (by decide)
  exact ⟨by decide, h1, h2, h4, by decide, by decide, h3 (by decide) (by decide)⟩

end Wiznet
